import Mathlib

/-!
# Verification of `ts-esm-migrate` (src/index.mts)

A shallow embedding of the single-file tool that rewrites relative module
specifiers in a TypeScript tree so they carry explicit runtime extensions.

The embedding mirrors the source:
* `joinPath` models POSIX `node:path` `join` as used on the absolute paths of
  this program (concatenate with `/`, then normalize `.` , `..` and empty
  segments; `..` at the root is dropped).
* `jsStartsWith` / `jsEndsWith` model JS `String.prototype.startsWith` /
  `endsWith` for literal arguments.
* `jsReplaceAll` models JS `String.prototype.replace` with a global regex
  whose pattern is a literal string: leftmost, non-overlapping replacement.
* `updateImportPathSpec` is the string-level body of `updateImportPath`
  (lines 121-139); `updateImportPath` is the node-level wrapper
  (lines 119-120); `visit` is the transformer's visitor (lines 45-88).
* `processFileStateful` / `runAll` model the per-file pipeline of the
  `Promise.allSettled` driver (lines 91-113), threading the two module-level
  mutable variables `currentVisitingFile` and `hasUpdate` explicitly.  In the
  source these globals are safe because lines 101-104 run synchronously on
  the event loop; the state threading makes that scheduling explicit.
* Parsing and printing (`ts.createSourceFile`, `printer.printFile`) and the
  optional prettier formatter are external collaborators and appear as
  function parameters.
-/

namespace TsEsmMigrate

/-! ## POSIX path join (model of `join` from `node:path` on absolute paths) -/

/-- Split a character list on `/`. -/
def splitSlash : List Char → List (List Char)
  | [] => [[]]
  | '/' :: t => [] :: splitSlash t
  | c :: t =>
    match splitSlash t with
    | [] => [[c]]
    | s :: rest => (c :: s) :: rest

/-- Normalize path segments: drop empty and `.` segments, let `..` pop the
previous segment (dropped at the root, as for absolute POSIX paths).  The
accumulator holds the kept segments in reverse order. -/
def normSegs : List (List Char) → List (List Char) → List (List Char)
  | acc, [] => acc.reverse
  | acc, seg :: rest =>
    if seg = [] ∨ seg = ['.'] then normSegs acc rest
    else if seg = ['.', '.'] then normSegs acc.tail rest
    else normSegs (seg :: acc) rest

/-- Model of `join(part₀, part₁, ...)` from `node:path` for an absolute first
part: concatenate with `/` and normalize. -/
def joinPath (parts : List String) : String :=
  String.mk
    ('/' :: List.intercalate ['/']
      (normSegs [] (splitSlash (List.intercalate ['/'] (parts.map String.data)))))

/-! ## JS string primitives -/

/-- JS `s.startsWith(p)`. -/
def jsStartsWith (s p : String) : Bool := decide (p.data <+: s.data)

/-- JS `s.endsWith(p)`. -/
def jsEndsWith (s p : String) : Bool := decide (p.data <:+ s.data)

/-! ## The specifier resolver (`updateImportPath`, lines 115-140) -/

/-- String-level body of `updateImportPath` (lines 121-139): given the `jsx`
flag, the global `currentVisitingFile`, the `visited` file index and the
specifier text, return the new specifier text together with the value the
source assigns to the global `hasUpdate` flag (`true` exactly on a match). -/
def updateImportPathSpec (jsx : Bool) (currentVisitingFile : String)
    (visited : List String) (spec : String) : String × Bool :=
  if !jsStartsWith spec "." then (spec, false)
  else if jsEndsWith spec ".js" then (spec, false)
  else
    let resolution := joinPath [currentVisitingFile, "../", spec]
    if visited.contains (resolution ++ ".ts") || visited.contains (resolution ++ ".d.ts") then
      (spec ++ ".js", true)
    else if visited.contains (resolution ++ ".tsx") then
      (spec ++ (if jsx then ".jsx" else ".js"), true)
    else if visited.contains (joinPath [resolution, "index.ts"])
        || visited.contains (joinPath [resolution, "index.d.ts"]) then
      (spec ++ "/index.js", true)
    else if visited.contains (joinPath [resolution, "index.tsx"]) then
      (spec ++ (if jsx then "/index.jsx" else "/index.js"), true)
    else (spec, false)

-- Sanity checks against the source's behaviour.
example : updateImportPathSpec false "/r/f.ts" ["/r/a.ts"] "./a" = ("./a.js", true) := by decide
example : updateImportPathSpec false "/r/f.ts" ["/r/a/index.ts"] "./a" = ("./a/index.js", true) := by
  decide
example : updateImportPathSpec true "/r/f.ts" ["/r/a.tsx"] "./a" = ("./a.jsx", true) := by decide
example : updateImportPathSpec false "/r/f.ts" ["/r/a.ts"] "react" = ("react", false) := by decide
example : updateImportPathSpec false "/r/f.ts" [] "./missing" = ("./missing", false) := by decide
example : updateImportPathSpec false "/r/sub/f.ts" ["/r/a.ts"] "../a" = ("../a.js", true) := by
  decide

/-! ## Syntax-tree model

The visitor distinguishes four specifier-bearing node shapes; everything
else is traversed child-wise (`ts.visitEachChild`).  A specifier position
holds an arbitrary expression: a string literal or anything else
(`updateImportPath` leaves non-string-literal expressions alone, line 120).
All node fields that the visitor passes through verbatim (modifiers, import
clauses, assert clauses, type arguments, ...) carry no specifiers and are
elided. -/

/-- An expression in a specifier position: a string literal, or any other
expression (computed dynamic-import argument, template literal, ...). -/
inductive Expr where
  | str (text : String)
  | nonStr
  deriving DecidableEq

mutual

/-- A syntax-tree node.  `importDecl` / `exportDecl` / `dynamicImport` /
`importTypeLit` are the four shapes the visitor rewrites; `other` is any
other node (including the source file itself and an `import type` whose
argument is not a string literal), carrying its children. -/
inductive Node where
  | importDecl (moduleSpecifier : Expr)
  | exportDecl (moduleSpecifier : Option Expr)
  | dynamicImport (args : List Expr)
  | importTypeLit (literalText : String)
  | other (children : NodeList)
  deriving DecidableEq

/-- Children of a node. -/
inductive NodeList where
  | nil
  | cons (head : Node) (tail : NodeList)
  deriving DecidableEq

end

/-- Node-level `updateImportPath` (lines 118-120 plus the string case): an
absent node and a non-string-literal node are returned as-is and the
`hasUpdate` flag is not set; a string literal goes through the resolver. -/
def updateImportPath (jsx : Bool) (currentVisitingFile : String)
    (visited : List String) : Option Expr → Option Expr × Bool
  | none => (none, false)
  | some Expr.nonStr => (some Expr.nonStr, false)
  | some (Expr.str text) =>
    let r := updateImportPathSpec jsx currentVisitingFile visited text
    (some (Expr.str r.1), r.2)

mutual

/-- The transformer's `visit` (lines 45-88): rewrite the specifier sub-node
of the four recognized shapes, recurse through everything else.  The `Bool`
is the contribution to the global `hasUpdate` flag. -/
def visit (jsx : Bool) (currentVisitingFile : String) (visited : List String) :
    Node → Node × Bool
  | Node.importDecl sp =>
    let r := updateImportPath jsx currentVisitingFile visited (some sp)
    (Node.importDecl (r.1.getD sp), r.2)
  | Node.exportDecl sp =>
    let r := updateImportPath jsx currentVisitingFile visited sp
    (Node.exportDecl r.1, r.2)
  | Node.dynamicImport [] => (Node.dynamicImport [], false)
  | Node.dynamicImport (a :: rest) =>
    let r := updateImportPath jsx currentVisitingFile visited (some a)
    (Node.dynamicImport (r.1.getD a :: rest), r.2)
  | Node.importTypeLit text =>
    let r := updateImportPathSpec jsx currentVisitingFile visited text
    (Node.importTypeLit r.1, r.2)
  | Node.other children =>
    let r := visitList jsx currentVisitingFile visited children
    (Node.other r.1, r.2)

/-- `ts.visitEachChild` over the children of a non-specifier node. -/
def visitList (jsx : Bool) (currentVisitingFile : String) (visited : List String) :
    NodeList → NodeList × Bool
  | NodeList.nil => (NodeList.nil, false)
  | NodeList.cons n rest =>
    let rn := visit jsx currentVisitingFile visited n
    let rr := visitList jsx currentVisitingFile visited rest
    (NodeList.cons rn.1 rr.1, rn.2 || rr.2)

end

example :
    visit false "/r/f.ts" ["/r/a.ts"]
      (Node.other (NodeList.cons (Node.importDecl (Expr.str "./a")) NodeList.nil))
    = (Node.other (NodeList.cons (Node.importDecl (Expr.str "./a.js")) NodeList.nil), true) := by
  decide

example :
    visit false "/r/f.ts" ["/r/a.ts"] (Node.exportDecl none)
    = (Node.exportDecl none, false) := by decide

/-! ## Sentinel substitution (lines 96 and 105) -/

/-- JS `s.replace(/pat/g, rep)` for a literal pattern `pat`: replace the
leftmost occurrence, continue after the replacement, never rescan the
replacement text.  (The guard against an empty pattern is vacuous here: both
patterns in the source are non-empty.) -/
def jsReplaceAll (pat rep : List Char) : List Char → List Char
  | [] => []
  | c :: t =>
    if pat ≠ [] ∧ pat <+: (c :: t) then
      rep ++ jsReplaceAll pat rep ((c :: t).drop pat.length)
    else
      c :: jsReplaceAll pat rep t
termination_by s => s.length
decreasing_by
  · rename_i h
    simp only [List.length_drop]
    have : pat ≠ [] := h.1
    have : 0 < pat.length := List.length_pos.mpr this
    simp only [List.length_cons]
    omega
  · simp only [List.length_cons]
    omega

/-- The sentinel block comment used to protect blank lines (line 96). -/
def SENTINEL : String := "/** THIS_IS_A_NEWLINE **/"

/-- Character-level body of line 96: every `\n\n` becomes `\n` followed by
the sentinel comment. -/
def preChars (l : List Char) : List Char :=
  jsReplaceAll ['\n', '\n'] ('\n' :: SENTINEL.data) l

/-- Character-level body of line 105: every sentinel comment becomes `\n`. -/
def postChars (l : List Char) : List Char :=
  jsReplaceAll SENTINEL.data ['\n'] l

/-- Line 96: `file.replace(/\n\n/g, '\n/** THIS_IS_A_NEWLINE **/')`. -/
def preText (s : String) : String := String.mk (preChars s.data)

/-- Line 105: `printed.replace(/\/\*\* THIS_IS_A_NEWLINE \*\*\//g, '\n')`. -/
def postText (s : String) : String := String.mk (postChars s.data)

/-! ## The per-file pipeline and the driver (lines 91-113) -/

/-- The two module-level mutable variables (lines 41-42). -/
structure GlobalState where
  currentVisitingFile : String
  hasUpdate : Bool
  deriving DecidableEq

/-- One file's pipeline body (lines 92-112), with the ambient mutable state
threaded explicitly.  `parse` and `print` stand for `ts.createSourceFile` /
`printer.printFile`, `fmt` for the optional prettier pass.  The second
component is the written text: `none` models the early `return` at line 104
(the file is not written at all). -/
def processFileStateful (jsx : Bool) (visited : List String)
    (parse : String → Node) (print : Node → String)
    (fmt : Option (String → String)) (st : GlobalState)
    (file : String × String) : GlobalState × Option String :=
  let source := parse (preText file.2)
  -- lines 101-102: hasUpdate = false; currentVisitingFile = path
  let st1 : GlobalState := { st with currentVisitingFile := file.1, hasUpdate := false }
  let r := visit jsx st1.currentVisitingFile visited source
  let st2 : GlobalState := { st1 with hasUpdate := st1.hasUpdate || r.2 }
  if st2.hasUpdate then
    let printed := postText (print r.1)
    match fmt with
    | some f => (st2, some (f printed))
    | none => (st2, some printed)
  else (st2, none)

/-- What one file's pipeline writes, as a pure function of (`jsx` flag, file
index, file path, file content) and the external parser/printer/formatter:
`none` when nothing is written. -/
def processFilePure (jsx : Bool) (visited : List String)
    (parse : String → Node) (print : Node → String)
    (fmt : Option (String → String)) (path text : String) : Option String :=
  let r := visit jsx path visited (parse (preText text))
  if r.2 then
    let printed := postText (print r.1)
    match fmt with
    | some f => some (f printed)
    | none => some printed
  else none

/-- The driver loop over all visited files (lines 91-113), threading the
global state from file to file and recording for each file the path it would
be written to and its resulting on-disk content (`Option.getD` keeps the old
content when the pipeline does not write). -/
def runAll (jsx : Bool) (visited : List String)
    (parse : String → Node) (print : Node → String)
    (fmt : Option (String → String)) :
    GlobalState → List (String × String) → List (String × String)
  | _, [] => []
  | st, f :: rest =>
    let r := processFileStateful jsx visited parse print fmt st f
    (f.1, (r.2).getD f.2) :: runAll jsx visited parse print fmt r.1 rest

/-! ## CLI entry (lines 7-25) -/

/-- Result of `parseArgs` (lines 7-13): the positionals and the two options. -/
structure ParsedArgs where
  positionals : List String
  jsx : Bool
  prettier : Option String

/-- Outcome of the program: either the usage path of lines 14-17 (message
printed, `process.exit()` — exit code 0 — before the index is built or any
file is touched), or a completed run over the visited files. -/
inductive MainOutcome where
  | usage (message : String) (exitCode : Nat) (files : List (String × String))
  | completed (files : List (String × String))
  deriving DecidableEq

/-- The program from the positionals check onward: `files` is the snapshot
of the walked files (path, content) that the external filesystem walk would
yield; their paths form the `visited` index. -/
def mainModel (args : ParsedArgs) (parse : String → Node) (print : Node → String)
    (fmt : Option (String → String)) (files : List (String × String)) : MainOutcome :=
  if args.positionals.length ≠ 1 then
    MainOutcome.usage "Usage: ts-esm-migrate <folder>" 0 files
  else
    MainOutcome.completed
      (runAll args.jsx (files.map Prod.fst) parse print fmt
        ⟨"", false⟩ files)

/-! ## Helper lemmas about the resolver -/

theorem data_append (s t : String) : (s ++ t).data = s.data ++ t.data := by
  cases s; cases t; rfl

theorem jsEndsWith_append (s t p : String) (h : jsEndsWith t p = true) :
    jsEndsWith (s ++ t) p = true := by
  simp only [jsEndsWith, decide_eq_true_eq] at h ⊢
  rw [data_append]
  obtain ⟨u, hu⟩ := h
  exact ⟨s.data ++ u, by rw [List.append_assoc, hu]⟩

/-- Line 123: a specifier already ending in `.js` always comes back unchanged
with the flag untouched (whether or not it is relative). -/
theorem updateImportPathSpec_endsJs (jsx : Bool) (file : String) (idx : List String)
    (spec : String) (h : jsEndsWith spec ".js" = true) :
    updateImportPathSpec jsx file idx spec = (spec, false) := by
  unfold updateImportPathSpec
  cases hj : jsStartsWith spec "." <;> simp [hj, h]

/-- Lines 126-139: when none of the four index forms matches, the specifier
comes back unchanged with the flag untouched. -/
theorem updateImportPathSpec_noMatch (jsx : Bool) (file : String) (idx : List String)
    (spec : String)
    (h1 : joinPath [file, "../", spec] ++ ".ts" ∉ idx)
    (h2 : joinPath [file, "../", spec] ++ ".d.ts" ∉ idx)
    (h3 : joinPath [file, "../", spec] ++ ".tsx" ∉ idx)
    (h4 : joinPath [joinPath [file, "../", spec], "index.ts"] ∉ idx)
    (h5 : joinPath [joinPath [file, "../", spec], "index.d.ts"] ∉ idx)
    (h6 : joinPath [joinPath [file, "../", spec], "index.tsx"] ∉ idx) :
    updateImportPathSpec jsx file idx spec = (spec, false) := by
  unfold updateImportPathSpec
  cases hj : jsStartsWith spec "." <;>
    cases he : jsEndsWith spec ".js" <;>
      simp [hj, he, h1, h2, h3, h4, h5, h6]

/-- With the `jsx` flag off, the resolver either leaves the specifier alone
or produces one ending in `.js`. -/
theorem updateImportPathSpec_false_cases (file : String) (idx : List String)
    (spec : String) :
    updateImportPathSpec false file idx spec = (spec, false)
    ∨ jsEndsWith (updateImportPathSpec false file idx spec).1 ".js" = true := by
  unfold updateImportPathSpec
  cases hj : jsStartsWith spec "." <;> cases he : jsEndsWith spec ".js"
  all_goals simp [hj, he]
  all_goals split_ifs
  all_goals
    simp [jsEndsWith_append spec ".js" ".js" (by decide),
      jsEndsWith_append spec "/index.js" ".js" (by decide)]

/-! ## Claims C1-C5: the resolver -/

/-- Claim C1, counterexample: as stated, idempotence fails.  With `--jsx` on,
the first run rewrites `./a` to `./a.jsx` (only `a.tsx` is indexed), and a
second run rewrites that output again to `./a.jsx.js`, because `./a.jsx` does
not end in `.js` (the only early-out, line 123) and the index also contains a
file `a.jsx.ts`. -/
theorem claim1_counterexample :
    (updateImportPathSpec true "/r/f.tsx" ["/r/a.tsx", "/r/a.jsx.ts"]
        (updateImportPathSpec true "/r/f.tsx" ["/r/a.tsx", "/r/a.jsx.ts"] "./a").1).1
      ≠ (updateImportPathSpec true "/r/f.tsx" ["/r/a.tsx", "/r/a.jsx.ts"] "./a").1 := by
  decide

/-- Claim C1 (amended): with the `jsx` flag off (the default), the
resolver-driven rewrite is idempotent — a second application to any first-run
output returns it unchanged and flags no update.  With the flag on, the same
holds provided the first-run output, when it does not already end in `.js`,
resolves to none of the four index forms (the counterexample shows this
proviso is necessary: an indexed `a.jsx.ts` re-rewrites the output
`./a.jsx`). -/
theorem claim1_rewrite_idempotent :
    (∀ (file : String) (idx : List String) (spec : String),
      updateImportPathSpec false file idx
          (updateImportPathSpec false file idx spec).1
        = ((updateImportPathSpec false file idx spec).1, false))
    ∧ ∀ (file : String) (idx : List String) (spec : String),
        (jsEndsWith (updateImportPathSpec true file idx spec).1 ".js" = false →
          joinPath [file, "../", (updateImportPathSpec true file idx spec).1] ++ ".ts" ∉ idx
          ∧ joinPath [file, "../", (updateImportPathSpec true file idx spec).1] ++ ".d.ts" ∉ idx
          ∧ joinPath [file, "../", (updateImportPathSpec true file idx spec).1] ++ ".tsx" ∉ idx
          ∧ joinPath [joinPath [file, "../", (updateImportPathSpec true file idx spec).1],
              "index.ts"] ∉ idx
          ∧ joinPath [joinPath [file, "../", (updateImportPathSpec true file idx spec).1],
              "index.d.ts"] ∉ idx
          ∧ joinPath [joinPath [file, "../", (updateImportPathSpec true file idx spec).1],
              "index.tsx"] ∉ idx) →
        updateImportPathSpec true file idx
            (updateImportPathSpec true file idx spec).1
          = ((updateImportPathSpec true file idx spec).1, false) := by
  constructor
  · intro file idx spec
    rcases updateImportPathSpec_false_cases file idx spec with h | h
    · rw [h]
      exact h
    · exact updateImportPathSpec_endsJs false file idx _ h
  · intro file idx spec h
    cases he : jsEndsWith (updateImportPathSpec true file idx spec).1 ".js" with
    | true => exact updateImportPathSpec_endsJs true file idx _ he
    | false =>
      obtain ⟨h1, h2, h3, h4, h5, h6⟩ := h he
      exact updateImportPathSpec_noMatch true file idx _ h1 h2 h3 h4 h5 h6

/-- Claim C1, witness for the amended second part: with only `a.tsx` indexed
the first run gives `./a.jsx`, and the second run leaves that unchanged. -/
theorem claim1_witness :
    updateImportPathSpec true "/r/f.tsx" ["/r/a.tsx"]
        (updateImportPathSpec true "/r/f.tsx" ["/r/a.tsx"] "./a").1
      = ((updateImportPathSpec true "/r/f.tsx" ["/r/a.tsx"] "./a").1, false) :=
  claim1_rewrite_idempotent.2 "/r/f.tsx" ["/r/a.tsx"] "./a" (fun _ => by decide)

/-- Claim C2, counterexample: the claim extends the early-out to every
resolved extension (`.js` and `.jsx`), but line 123 only tests `.js`.  The
relative specifier `./a.jsx` ends in the resolved extension `.jsx`, yet when
the index holds a file `a.jsx.ts` the resolver rewrites it (to
`./a.jsx.js`). -/
theorem claim2_counterexample :
    jsStartsWith "./a.jsx" "." = true
    ∧ jsEndsWith "./a.jsx" ".jsx" = true
    ∧ (updateImportPathSpec false "/r/f.ts" ["/r/a.jsx.ts"] "./a.jsx").1 ≠ "./a.jsx" := by
  refine ⟨by decide, by decide, by decide⟩

/-- Claim C2 (amended): a specifier already ending in `.js` — the only
extension line 123 tests — is always returned unchanged with the update flag
untouched, even if a same-named `.ts`/`.tsx` file exists in the index;
specifiers ending in `.jsx` are not protected by this early-out. -/
theorem claim2_already_resolved_untouched (jsx : Bool) (file : String)
    (idx : List String) (spec : String) (h : jsEndsWith spec ".js" = true) :
    updateImportPathSpec jsx file idx spec = (spec, false) :=
  updateImportPathSpec_endsJs jsx file idx spec h

/-- Claim C2, witness: `./a.js` is untouched even though the index holds both
`a.ts` and `a.tsx` (and even `a.js.ts`). -/
theorem claim2_witness :
    updateImportPathSpec false "/r/f.ts" ["/r/a.ts", "/r/a.tsx", "/r/a.js.ts"] "./a.js"
      = ("./a.js", false) :=
  claim2_already_resolved_untouched false "/r/f.ts" ["/r/a.ts", "/r/a.tsx", "/r/a.js.ts"]
    "./a.js" (by decide)

/-- Claim C3: for a relative, not-already-resolved specifier the four index
forms are tested in the fixed order file `.ts`/`.d.ts`, then file `.tsx`,
then `/index.ts`/`/index.d.ts`, then `/index.tsx`, and the first match
determines the appended suffix (later matches are irrelevant once an earlier
form matches). -/
theorem claim3_resolution_priority (jsx : Bool) (file : String)
    (idx : List String) (spec : String)
    (hrel : jsStartsWith spec "." = true)
    (hjs : jsEndsWith spec ".js" = false) :
    ((joinPath [file, "../", spec] ++ ".ts" ∈ idx
        ∨ joinPath [file, "../", spec] ++ ".d.ts" ∈ idx) →
      updateImportPathSpec jsx file idx spec = (spec ++ ".js", true))
    ∧ (joinPath [file, "../", spec] ++ ".ts" ∉ idx →
       joinPath [file, "../", spec] ++ ".d.ts" ∉ idx →
       joinPath [file, "../", spec] ++ ".tsx" ∈ idx →
      updateImportPathSpec jsx file idx spec
        = (spec ++ (if jsx then ".jsx" else ".js"), true))
    ∧ (joinPath [file, "../", spec] ++ ".ts" ∉ idx →
       joinPath [file, "../", spec] ++ ".d.ts" ∉ idx →
       joinPath [file, "../", spec] ++ ".tsx" ∉ idx →
       (joinPath [joinPath [file, "../", spec], "index.ts"] ∈ idx
         ∨ joinPath [joinPath [file, "../", spec], "index.d.ts"] ∈ idx) →
      updateImportPathSpec jsx file idx spec = (spec ++ "/index.js", true))
    ∧ (joinPath [file, "../", spec] ++ ".ts" ∉ idx →
       joinPath [file, "../", spec] ++ ".d.ts" ∉ idx →
       joinPath [file, "../", spec] ++ ".tsx" ∉ idx →
       joinPath [joinPath [file, "../", spec], "index.ts"] ∉ idx →
       joinPath [joinPath [file, "../", spec], "index.d.ts"] ∉ idx →
       joinPath [joinPath [file, "../", spec], "index.tsx"] ∈ idx →
      updateImportPathSpec jsx file idx spec
        = (spec ++ (if jsx then "/index.jsx" else "/index.js"), true)) := by
  refine ⟨?_, ?_, ?_, ?_⟩ <;>
    · intros
      unfold updateImportPathSpec
      simp_all

/-- Claim C3, witness: with both `./a.ts` and `./a/index.ts` indexed, `./a`
rewrites to `./a.js` (file form wins); with only `./a/index.ts` indexed it
rewrites to `./a/index.js`. -/
theorem claim3_witness :
    updateImportPathSpec false "/r/f.ts" ["/r/a.ts", "/r/a/index.ts"] "./a"
      = ("./a.js", true)
    ∧ updateImportPathSpec false "/r/f.ts" ["/r/a/index.ts"] "./a"
      = ("./a/index.js", true) := by
  constructor
  · exact
      (claim3_resolution_priority false "/r/f.ts" ["/r/a.ts", "/r/a/index.ts"] "./a"
          (by decide) (by decide)).1 (by decide)
  · simpa using
      (claim3_resolution_priority false "/r/f.ts" ["/r/a/index.ts"] "./a"
          (by decide) (by decide)).2.2.1 (by decide) (by decide) (by decide) (by decide)

/-- Claim C4: when the candidate resolves only as a `.tsx` file (or only as a
`.tsx` directory index), the appended extension is `.js` when the `jsx` flag
is off and `.jsx` when it is on (`/index.js` vs `/index.jsx` for the
directory-index match). -/
theorem claim4_jsx_flag (jsx : Bool) (file : String) (idx : List String)
    (spec : String)
    (hrel : jsStartsWith spec "." = true)
    (hjs : jsEndsWith spec ".js" = false)
    (h1 : joinPath [file, "../", spec] ++ ".ts" ∉ idx)
    (h2 : joinPath [file, "../", spec] ++ ".d.ts" ∉ idx) :
    (joinPath [file, "../", spec] ++ ".tsx" ∈ idx →
      updateImportPathSpec jsx file idx spec
        = (spec ++ (if jsx then ".jsx" else ".js"), true))
    ∧ (joinPath [file, "../", spec] ++ ".tsx" ∉ idx →
       joinPath [joinPath [file, "../", spec], "index.ts"] ∉ idx →
       joinPath [joinPath [file, "../", spec], "index.d.ts"] ∉ idx →
       joinPath [joinPath [file, "../", spec], "index.tsx"] ∈ idx →
      updateImportPathSpec jsx file idx spec
        = (spec ++ (if jsx then "/index.jsx" else "/index.js"), true)) := by
  constructor <;>
    · intros
      unfold updateImportPathSpec
      simp_all

/-- Claim C4, witness: with only `a.tsx` indexed, `./a` becomes `./a.js`
with the flag off and `./a.jsx` with it on; with only `a/index.tsx` indexed
it becomes `./a/index.js` vs `./a/index.jsx`. -/
theorem claim4_witness :
    updateImportPathSpec false "/r/f.ts" ["/r/a.tsx"] "./a" = ("./a.js", true)
    ∧ updateImportPathSpec true "/r/f.ts" ["/r/a.tsx"] "./a" = ("./a.jsx", true)
    ∧ updateImportPathSpec false "/r/f.ts" ["/r/a/index.tsx"] "./a"
      = ("./a/index.js", true)
    ∧ updateImportPathSpec true "/r/f.ts" ["/r/a/index.tsx"] "./a"
      = ("./a/index.jsx", true) := by
  refine ⟨?_, ?_, ?_, ?_⟩
  · simpa using
      (claim4_jsx_flag false "/r/f.ts" ["/r/a.tsx"] "./a" (by decide) (by decide)
          (by decide) (by decide)).1 (by decide)
  · simpa using
      (claim4_jsx_flag true "/r/f.ts" ["/r/a.tsx"] "./a" (by decide) (by decide)
          (by decide) (by decide)).1 (by decide)
  · simpa using
      (claim4_jsx_flag false "/r/f.ts" ["/r/a/index.tsx"] "./a" (by decide) (by decide)
          (by decide) (by decide)).2 (by decide) (by decide) (by decide) (by decide)
  · simpa using
      (claim4_jsx_flag true "/r/f.ts" ["/r/a/index.tsx"] "./a" (by decide) (by decide)
          (by decide) (by decide)).2 (by decide) (by decide) (by decide) (by decide)

/-- Claim C5: when the candidate path matches none of the four index forms
the resolver returns the specifier unchanged with the update flag untouched.
The model is a total function, so there is no error path at all: absence of
a match is a silent no-op. -/
theorem claim5_passthrough (jsx : Bool) (file : String) (idx : List String)
    (spec : String)
    (h1 : joinPath [file, "../", spec] ++ ".ts" ∉ idx)
    (h2 : joinPath [file, "../", spec] ++ ".d.ts" ∉ idx)
    (h3 : joinPath [file, "../", spec] ++ ".tsx" ∉ idx)
    (h4 : joinPath [joinPath [file, "../", spec], "index.ts"] ∉ idx)
    (h5 : joinPath [joinPath [file, "../", spec], "index.d.ts"] ∉ idx)
    (h6 : joinPath [joinPath [file, "../", spec], "index.tsx"] ∉ idx) :
    updateImportPathSpec jsx file idx spec = (spec, false) :=
  updateImportPathSpec_noMatch jsx file idx spec h1 h2 h3 h4 h5 h6

/-- Claim C5, witness: `./missing` is left unchanged by a non-trivial index. -/
theorem claim5_witness :
    updateImportPathSpec false "/r/f.ts" ["/r/a.ts"] "./missing" = ("./missing", false) :=
  claim5_passthrough false "/r/f.ts" ["/r/a.ts"] "./missing" (by decide) (by decide)
    (by decide) (by decide) (by decide) (by decide)

/-! ## Helper lemmas about the visitor and the pipeline -/

/-- The resolver either flags an update or returns its input untouched. -/
theorem updateImportPathSpec_flag (jsx : Bool) (file : String) (idx : List String)
    (spec : String) :
    (updateImportPathSpec jsx file idx spec).2 = true
    ∨ updateImportPathSpec jsx file idx spec = (spec, false) := by
  unfold updateImportPathSpec
  cases hj : jsStartsWith spec "." <;> cases he : jsEndsWith spec ".js"
  all_goals simp [hj, he]
  all_goals split_ifs
  all_goals simp

theorem updateImportPathSpec_of_not_update (jsx : Bool) (file : String)
    (idx : List String) (spec : String)
    (h : (updateImportPathSpec jsx file idx spec).2 = false) :
    (updateImportPathSpec jsx file idx spec).1 = spec := by
  rcases updateImportPathSpec_flag jsx file idx spec with hf | hf
  · simp [h] at hf
  · simp [hf]

theorem updateImportPath_of_not_update (jsx : Bool) (file : String)
    (idx : List String) (o : Option Expr)
    (h : (updateImportPath jsx file idx o).2 = false) :
    (updateImportPath jsx file idx o).1 = o := by
  match o with
  | none => rfl
  | some Expr.nonStr => rfl
  | some (Expr.str s) =>
    simp only [updateImportPath] at h ⊢
    rw [updateImportPathSpec_of_not_update jsx file idx s h]

mutual

/-- A visit that does not set the update flag reproduces the node exactly. -/
theorem visit_of_not_update (jsx : Bool) (file : String) (idx : List String) :
    ∀ n : Node, (visit jsx file idx n).2 = false → (visit jsx file idx n).1 = n
  | Node.importDecl sp, h => by
    simp only [visit] at h ⊢
    rw [updateImportPath_of_not_update jsx file idx (some sp) h]
    rfl
  | Node.exportDecl sp, h => by
    simp only [visit] at h ⊢
    rw [updateImportPath_of_not_update jsx file idx sp h]
  | Node.dynamicImport [], _ => rfl
  | Node.dynamicImport (a :: rest), h => by
    simp only [visit] at h ⊢
    rw [updateImportPath_of_not_update jsx file idx (some a) h]
    rfl
  | Node.importTypeLit s, h => by
    simp only [visit] at h ⊢
    rw [updateImportPathSpec_of_not_update jsx file idx s h]
  | Node.other children, h => by
    simp only [visit] at h ⊢
    rw [visitList_of_not_update jsx file idx children h]

/-- List version of `visit_of_not_update`. -/
theorem visitList_of_not_update (jsx : Bool) (file : String) (idx : List String) :
    ∀ l : NodeList, (visitList jsx file idx l).2 = false →
      (visitList jsx file idx l).1 = l
  | NodeList.nil, _ => rfl
  | NodeList.cons n rest, h => by
    simp only [visitList] at h ⊢
    rw [Bool.or_eq_false_iff] at h
    rw [visit_of_not_update jsx file idx n h.1,
      visitList_of_not_update jsx file idx rest h.2]

end

/-- The output of one file's pipeline does not depend on the incoming global
state: it equals the pure per-file function. -/
theorem processFileStateful_snd (jsx : Bool) (visited : List String)
    (parse : String → Node) (print : Node → String)
    (fmt : Option (String → String)) (st : GlobalState) (f : String × String) :
    (processFileStateful jsx visited parse print fmt st f).2
      = processFilePure jsx visited parse print fmt f.1 f.2 := by
  unfold processFileStateful processFilePure
  cases hr : (visit jsx f.1 visited (parse (preText f.2))).2 <;> cases fmt <;>
    simp [hr]

/-! ## Claims C7-C10: purity, the no-op skip, the CLI and non-literal nodes -/

/-- Claim C7: the run over all files is the map of a pure per-file function
of (`jsx` flag, file index, file path, file content): the threaded global
state (`currentVisitingFile`, `hasUpdate`) has no influence on any file's
outcome, the index is passed around unchanged, and since the result is a
`List.map`, no file's outcome depends on the other files or on the order in
which they are processed. -/
theorem claim7_resolution_pure (jsx : Bool) (visited : List String)
    (parse : String → Node) (print : Node → String)
    (fmt : Option (String → String)) (st : GlobalState)
    (files : List (String × String)) :
    runAll jsx visited parse print fmt st files
      = files.map (fun f =>
          (f.1, (processFilePure jsx visited parse print fmt f.1 f.2).getD f.2)) := by
  induction files generalizing st with
  | nil => rfl
  | cons f rest ih =>
    simp only [runAll, List.map_cons]
    rw [ih, processFileStateful_snd]

/-- Claim C8: a file on which the visitor flags no update is not written at
all (the pipeline produces `none`, the early return of line 104), its tree
is reproduced exactly, and the driver leaves its (path, content) pair
byte-for-byte untouched. -/
theorem claim8_noop_skip (jsx : Bool) (visited : List String)
    (parse : String → Node) (print : Node → String)
    (fmt : Option (String → String)) (st : GlobalState) (p t : String)
    (h : (visit jsx p visited (parse (preText t))).2 = false) :
    (processFileStateful jsx visited parse print fmt st (p, t)).2 = none
    ∧ (visit jsx p visited (parse (preText t))).1 = parse (preText t)
    ∧ runAll jsx visited parse print fmt st [(p, t)] = [(p, t)] := by
  have hw : (processFileStateful jsx visited parse print fmt st (p, t)).2 = none := by
    rw [processFileStateful_snd]
    unfold processFilePure
    simp [h]
  refine ⟨hw, visit_of_not_update jsx p visited _ h, ?_⟩
  simp only [runAll]
  rw [hw]
  rfl

/-- Claim C8, witness: a file whose tree holds no specifier at all is left
alone by the pipeline. -/
theorem claim8_witness :
    ((processFileStateful false ["/r/a.ts"] (fun _ => Node.other NodeList.nil)
        (fun _ => "") none ⟨"", false⟩ ("/r/a.ts", "const x = 1")).2 = none)
    ∧ ((visit false "/r/a.ts" ["/r/a.ts"]
        ((fun _ => Node.other NodeList.nil) (preText "const x = 1"))).1
      = (fun _ => Node.other NodeList.nil) (preText "const x = 1"))
    ∧ runAll false ["/r/a.ts"] (fun _ => Node.other NodeList.nil) (fun _ => "") none
        ⟨"", false⟩ [("/r/a.ts", "const x = 1")] = [("/r/a.ts", "const x = 1")] :=
  claim8_noop_skip false ["/r/a.ts"] (fun _ => Node.other NodeList.nil) (fun _ => "")
    none ⟨"", false⟩ "/r/a.ts" "const x = 1" (by decide)

/-- Claim C9: with zero or more than one positional argument the program
takes the usage path of lines 14-17: it prints the usage message and exits
via `process.exit()` — exit code 0, a success status — before the file index
is built or any file is processed (the snapshot comes back untouched). -/
theorem claim9_usage_exit (args : ParsedArgs) (parse : String → Node)
    (print : Node → String) (fmt : Option (String → String))
    (files : List (String × String))
    (h : args.positionals.length ≠ 1) :
    mainModel args parse print fmt files
      = MainOutcome.usage "Usage: ts-esm-migrate <folder>" 0 files := by
  unfold mainModel
  simp [h]

/-- Claim C9, witness: zero positionals exit with the usage message, code 0,
and untouched files. -/
theorem claim9_witness :
    mainModel ⟨[], false, none⟩ (fun _ => Node.other NodeList.nil) (fun _ => "") none
        [("/r/a.ts", "x")]
      = MainOutcome.usage "Usage: ts-esm-migrate <folder>" 0 [("/r/a.ts", "x")] :=
  claim9_usage_exit ⟨[], false, none⟩ (fun _ => Node.other NodeList.nil) (fun _ => "")
    none [("/r/a.ts", "x")] (by decide)

/-- Claim C10: an absent specifier (export declaration without a from-clause)
and a non-string-literal specifier expression pass through `updateImportPath`
unchanged without setting the update flag (lines 119-120), the visitor
reproduces such nodes exactly, and a file containing only such nodes is
never written. -/
theorem claim10_non_literal_untouched (jsx : Bool) (file : String)
    (visited : List String) :
    updateImportPath jsx file visited none = (none, false)
    ∧ updateImportPath jsx file visited (some Expr.nonStr) = (some Expr.nonStr, false)
    ∧ visit jsx file visited (Node.exportDecl none) = (Node.exportDecl none, false)
    ∧ (∀ rest : List Expr,
        visit jsx file visited (Node.dynamicImport (Expr.nonStr :: rest))
          = (Node.dynamicImport (Expr.nonStr :: rest), false))
    ∧ ∀ (parse : String → Node) (print : Node → String)
        (fmt : Option (String → String)) (st : GlobalState) (p t : String),
        parse (preText t) = Node.exportDecl none →
        (processFileStateful jsx visited parse print fmt st (p, t)).2 = none := by
  refine ⟨rfl, rfl, rfl, fun rest => rfl, ?_⟩
  intro parse print fmt st p t hp
  rw [processFileStateful_snd]
  unfold processFilePure
  rw [hp]
  rfl

/-- Claim C10, witness: a file whose whole tree is a from-clause-less export
declaration is not written. -/
theorem claim10_witness :
    (processFileStateful false ["/r/a.ts"] (fun _ => Node.exportDecl none)
        (fun _ => "") none ⟨"", false⟩ ("/r/a.ts", "export")).2 = none :=
  (claim10_non_literal_untouched false "/r/a.ts" ["/r/a.ts"]).2.2.2.2
    (fun _ => Node.exportDecl none) (fun _ => "") none ⟨"", false⟩ "/r/a.ts" "export" rfl

/-! ## Claim C6: the sentinel substitution round-trip -/

theorem jsReplaceAll_nil (pat rep : List Char) : jsReplaceAll pat rep [] = [] := by
  simp [jsReplaceAll]

theorem jsReplaceAll_pos (pat rep l : List Char) (hne : pat ≠ []) (hp : pat <+: l) :
    jsReplaceAll pat rep l = rep ++ jsReplaceAll pat rep (l.drop pat.length) := by
  match l with
  | [] =>
    obtain ⟨q, hq⟩ := hp
    exact absurd (List.append_eq_nil.mp hq).1 hne
  | c :: t =>
    rw [jsReplaceAll]
    rw [if_pos ⟨hne, hp⟩]

theorem jsReplaceAll_neg (pat rep : List Char) (c : Char) (t : List Char)
    (h : ¬ pat <+: (c :: t)) :
    jsReplaceAll pat rep (c :: t) = c :: jsReplaceAll pat rep t := by
  rw [jsReplaceAll]
  rw [if_neg (fun hc => h hc.2)]

theorem preChars_nil : preChars [] = [] := jsReplaceAll_nil _ _

theorem preChars_pos (t : List Char) :
    preChars ('\n' :: '\n' :: t) = '\n' :: (SENTINEL.data ++ preChars t) := by
  unfold preChars
  rw [jsReplaceAll_pos ['\n', '\n'] ('\n' :: SENTINEL.data) ('\n' :: '\n' :: t)
    (by decide) ⟨t, rfl⟩]
  rfl

theorem preChars_neg (c : Char) (t : List Char) (h : ¬ ['\n', '\n'] <+: (c :: t)) :
    preChars (c :: t) = c :: preChars t :=
  jsReplaceAll_neg _ _ _ _ h

theorem postChars_nil : postChars [] = [] := jsReplaceAll_nil _ _

theorem postChars_pos (x : List Char) :
    postChars (SENTINEL.data ++ x) = '\n' :: postChars x := by
  unfold postChars
  rw [jsReplaceAll_pos _ _ _ (by decide) ⟨x, rfl⟩]
  rw [List.drop_left]
  rfl

theorem postChars_neg (c : Char) (t : List Char) (h : ¬ SENTINEL.data <+: (c :: t)) :
    postChars (c :: t) = c :: postChars t :=
  jsReplaceAll_neg _ _ _ _ h

/-- A list starting as `a :: l₂` can only be extended by `[]` or by a list
starting with `a`. -/
theorem pfx_cons_cases {α : Type} {l₁ : List α} {a : α} {l₂ : List α}
    (h : l₁ <+: a :: l₂) :
    l₁ = [] ∨ ∃ l', l₁ = a :: l' ∧ l' <+: l₂ := by
  obtain ⟨q, hq⟩ := h
  match l₁ with
  | [] => exact Or.inl rfl
  | b :: bs =>
    simp only [List.cons_append] at hq
    injection hq with h1 h2
    exact Or.inr ⟨bs, by rw [h1], ⟨q, h2⟩⟩

theorem infix_cons {l t : List Char} (c : Char) (h : l <:+: t) : l <:+: (c :: t) := by
  obtain ⟨x, y, hxy⟩ := h
  exact ⟨c :: x, y, by simp [hxy]⟩

/-- The sentinel comment contains no newline, so it can never begin at a
newline. -/
theorem sentinel_not_pfx_nl (l : List Char) : ¬ SENTINEL.data <+: ('\n' :: l) := by
  intro h
  rcases pfx_cons_cases h with hnil | ⟨l', hl', _⟩
  · exact (by decide : SENTINEL.data ≠ []) hnil
  · exact (by decide : ('\n') ∉ SENTINEL.data) (hl' ▸ List.mem_cons_self _ _)

/-- A newline-free prefix of the pre-substituted text is a prefix of the
original text: the substitution only ever inserts characters directly after
a newline. -/
theorem pfx_preChars (t p : List Char) (hnl : '\n' ∉ p) (h : p <+: preChars t) :
    p <+: t := by
  suffices H : ∀ n (t p : List Char), t.length = n → '\n' ∉ p → p <+: preChars t →
      p <+: t from H t.length t p rfl hnl h
  intro n
  induction n using Nat.strong_induction_on with
  | _ n ih =>
    intro t p hlen hnl h
    match t with
    | [] =>
      rw [preChars_nil] at h
      obtain ⟨q, hq⟩ := h
      rw [(List.append_eq_nil.mp hq).1]
    | c :: u =>
      by_cases hnn : ['\n', '\n'] <+: (c :: u)
      · obtain ⟨q, hq⟩ := hnn
        simp only [List.cons_append, List.nil_append] at hq
        injection hq with h1 h2
        subst h1
        subst h2
        rw [preChars_pos] at h
        rcases pfx_cons_cases h with rfl | ⟨p', hp', _⟩
        · exact ⟨_, rfl⟩
        · exact absurd (hp' ▸ List.mem_cons_self _ _) hnl
      · rw [preChars_neg c u hnn] at h
        rcases pfx_cons_cases h with rfl | ⟨p', hp', hp'u⟩
        · exact ⟨_, rfl⟩
        · subst hp'
          have hnl' : '\n' ∉ p' := fun hm => hnl (List.mem_cons_of_mem _ hm)
          have hu : p' <+: u := by
            refine ih u.length ?_ u p' rfl hnl' hp'u
            rw [← hlen]
            simp
          obtain ⟨w, hw⟩ := hu
          exact ⟨w, by simp [hw]⟩

/-- Core of Claim C6, at the character level: if the sentinel does not occur
in the input, substituting it back in after the pre-parse substitution is
the identity. -/
theorem postChars_preChars (s : List Char) (hs : ¬ SENTINEL.data <:+: s) :
    postChars (preChars s) = s := by
  suffices H : ∀ n (t : List Char), t.length = n → ¬ SENTINEL.data <:+: t →
      postChars (preChars t) = t from H s.length s rfl hs
  intro n
  induction n using Nat.strong_induction_on with
  | _ n ih =>
    intro t hlen hs
    match t with
    | [] => rw [preChars_nil, postChars_nil]
    | c :: u =>
      by_cases hnn : ['\n', '\n'] <+: (c :: u)
      · obtain ⟨q, hq⟩ := hnn
        simp only [List.cons_append, List.nil_append] at hq
        injection hq with h1 h2
        subst h1
        subst h2
        rw [preChars_pos, postChars_neg _ _ (sentinel_not_pfx_nl _), postChars_pos]
        have hq' : postChars (preChars q) = q := by
          refine ih q.length ?_ q rfl ?_
          · rw [← hlen]; simp; omega
          · exact fun hinf => hs (infix_cons _ (infix_cons _ hinf))
        rw [hq']
      · rw [preChars_neg c u hnn]
        have hnp : ¬ SENTINEL.data <+: (c :: preChars u) := by
          intro hpfx
          rcases pfx_cons_cases hpfx with hnil | ⟨p', hP, hp'⟩
          · exact (by decide : SENTINEL.data ≠ []) hnil
          · have hnl' : '\n' ∉ p' := fun hm =>
              (by decide : ('\n') ∉ SENTINEL.data) (hP ▸ List.mem_cons_of_mem _ hm)
            obtain ⟨w, hw⟩ := pfx_preChars u p' hnl' hp'
            exact hs ⟨[], w, by simp [hP, hw]⟩
        rw [postChars_neg _ _ hnp]
        have hu : postChars (preChars u) = u := by
          refine ih u.length ?_ u rfl ?_
          · rw [← hlen]; simp
          · exact fun hinf => hs (infix_cons _ hinf)
        rw [hu]

/-- Claim C6: for a source text that does not contain the sentinel comment,
the post-print substitution undoes the pre-parse substitution exactly, so
blank-line layout survives the round-trip. -/
theorem claim6_sentinel_roundtrip (s : String) (h : ¬ SENTINEL.data <:+: s.data) :
    postText (preText s) = s := by
  cases s with
  | mk d => exact congrArg String.mk (postChars_preChars d h)

/-- Claim C6, witness: a text with one blank line round-trips unchanged. -/
theorem claim6_witness :
    ¬ SENTINEL.data <:+: ("const a = 1\n\nconst b = 2" : String).data
    ∧ postText (preText "const a = 1\n\nconst b = 2") = "const a = 1\n\nconst b = 2" :=
  ⟨by decide, claim6_sentinel_roundtrip "const a = 1\n\nconst b = 2" (by decide)⟩

end TsEsmMigrate
